import Mathlib

set_option maxHeartbeats 1000000

/-!
Verification development for a small WebAssembly interpreter written in Rust.
The definitions below are a shallow embedding of the repository's source:

* `src/rt.rs`      — the value stack, runtime errors, and `Machine::execute`/`Machine::call`
* `src/repr.rs`    — the module IR (`Inst`, `Module`, …)
* `src/instance.rs`— the `Store`, allocation, and `instantiate`
* `src/parser.rs`  — the LEB128 decoder `Parser::parse_u32`
* `src/text/token.rs` and `src/scripts.rs` — the text tokenizer and tree builder

Machine integers are modelled with `Nat`/`Int` plus explicit wrapping
(`% 2 ^ 32`, …) exactly where Rust (release-mode) wraps.  Rust panics
(`panic!`, `todo!`, out-of-bounds indexing, `unwrap`) are modelled by a
dedicated `panic` outcome that carries the state at the moment of the panic,
since the mutations performed before an abort are what several properties
are about.  Loops and calls are driven by an explicit fuel parameter; running
out of fuel yields the artificial outcome `diverge`.
-/

namespace Wasm

/-! ## Two's-complement helpers (i32 / i64 / usize) -/

/-- Normalize an integer to the i32 value range, as Rust wrapping arithmetic does. -/
def wrap32 (n : Int) : Int := (n + 2 ^ 31) % 2 ^ 32 - 2 ^ 31

/-- Normalize an integer to the i64 value range. -/
def wrap64 (n : Int) : Int := (n + 2 ^ 63) % 2 ^ 64 - 2 ^ 63

/-- Bit pattern of an i32 read as u32 (`i as u32`). -/
def toU32 (i : Int) : Nat := (i % 2 ^ 32).toNat

/-- Bit pattern of an i64 read as u64. -/
def toU64 (i : Int) : Nat := (i % 2 ^ 64).toNat

/-- Reinterpret a u32 bit pattern as an i32. -/
def fromU32 (n : Nat) : Int := wrap32 (Int.ofNat n)

/-- Reinterpret a u64 bit pattern as an i64. -/
def fromU64 (n : Nat) : Int := wrap64 (Int.ofNat n)

/-- Rust `i as usize` for `i : i32` on a 64-bit target: sign-extend, read unsigned. -/
def i32usize (i : Int) : Nat := (i % 2 ^ 64).toNat

/-- Low byte of an i32 (`c as u8`). -/
def toU8 (i : Int) : Nat := (i % 2 ^ 8).toNat

/-- Little-endian bytes of a natural number, fixed width `w` (as `to_le_bytes`). -/
def leBytes : Nat → Nat → List Nat
  | 0, _ => []
  | w + 1, n => n % 256 :: leBytes w (n / 256)

/-- Natural number denoted by a little-endian byte list (as `from_le_bytes`). -/
def leNat : List Nat → Nat
  | [] => 0
  | b :: bs => b + 256 * leNat bs

/-! ## Module IR (`src/repr.rs`) -/

inductive ValType where
  | I32 | I64 | F32 | F64 | V128 | FuncRef | ExternRef
deriving DecidableEq, Repr

inductive Reftype where
  | Funcref | Externref
deriving DecidableEq, Repr

structure ResultType where
  types : List ValType
deriving DecidableEq, Repr

/-- Model of `FuncType { from, to }`; `from` is a Lean keyword, hence `fromT`/`toT`. -/
structure FuncType where
  fromT : ResultType
  toT : ResultType
deriving DecidableEq, Repr

/-- Model of `MemArg { align, offset }` — both `u32` in the source. -/
structure MemArg where
  align : Nat
  offset : Nat
deriving DecidableEq, Repr

/-- Model of `Locals { n, t }` — a run-length local-variable declaration. -/
structure LocalsDecl where
  n : Nat
  t : ValType
deriving DecidableEq, Repr

/-- The instruction set of `repr.rs`.  `u32` index newtypes (`LocalIdx`,
`LabelIdx`, `FuncIdx`, `TypeIdx`, `TableIdx`) become `Nat`; the `f64` payload
of `F64Const` is carried as its bit pattern, which no modelled operation
inspects. -/
inductive Inst where
  | Unreachable
  | Nop
  | Block (body : List Inst)
  | Loop (body : List Inst)
  | IfElse (thenB : List Inst) (elseB : List Inst)
  | Break (l : Nat)
  | BreakIf (l : Nat)
  | BreakTable (ls : List Nat) (l : Nat)
  | Return
  | Call (f : Nat)
  | CallIndirect (t : Nat) (tbl : Nat)
  | Drop
  | Select
  | LocalGet (i : Nat)
  | LocalSet (i : Nat)
  | LocalTee (i : Nat)
  | I32Load (m : MemArg)
  | I64Load (m : MemArg)
  | I32Store (m : MemArg)
  | I32Store8 (m : MemArg)
  | I32Load8U (m : MemArg)
  | I32Load16U (m : MemArg)
  | I32Store16 (m : MemArg)
  | I64Store (m : MemArg)
  | F64Store (m : MemArg)
  | F64Load (m : MemArg)
  | F32Load (m : MemArg)
  | I32Load8S (m : MemArg)
  | I32Load16S (m : MemArg)
  | I64Store8 (m : MemArg)
  | I64Store16 (m : MemArg)
  | I64Store32 (m : MemArg)
  | I64Load32U (m : MemArg)
  | MemorySize
  | MemoryGrow
  | I32Const (v : Int)
  | I64Const (v : Int)
  | F64Const (bits : Nat)
  | I32Eqz | I32Eq | I32Ne | I32GeS | I32LtS | I32LtU | I32LeU
  | I32GtS | I32GtU | I32LeS | I32GeU
  | I64Eqz | I64Eq | I64Ne | I64LtS | I64LtU | I64GtS | I64GtU
  | F64Eq | F64Ne | F64Le | F64Ge | F64Lt | F64Gt
  | I32Clz | I32Ctz | I32Add | I32Sub | I32Mul | I32And | I32Or | I32Xor
  | I32DivS | I32DivU | I32RemS | I32RemU | I32ShrS | I32ShrU | I32Rotl
  | I32Popcnt | I32Shl | I32Rotr
  | I64Mul | I64Add | I64Or | I64ShrU | I64Xor | I64Shl | I64And
  | F32Add
  | F64Add | F64Sub | F64Mul | F64Abs | F64Neg | F64Div | F64Min | F64Max
  | F64Ceil | F64Floor | F64Trunc | F64Nearest | F64Sqrt
  | I32WrapI64 | F64ReinterpretI64 | F64ConvertI64U | I64ExtendI32U
deriving Repr

/-- Model of `Func { typ, locals, body }` — a local function's code. -/
structure Func where
  typ : Nat
  locals : List LocalsDecl
  body : List Inst
deriving Repr

structure Limits where
  min : Nat
  max : Option Nat
deriving DecidableEq, Repr

structure TableType where
  reftype : Reftype
  limits : Limits
deriving DecidableEq, Repr

structure MemType where
  limits : Limits
deriving DecidableEq, Repr

/-! ## Runtime values and errors (`src/rt.rs`) -/

/-- Model of `Ref` — runtime reference values. -/
inductive Ref where
  | Null (t : Reftype)
  | Func (a : Nat)
  | Extern (a : Nat)
deriving DecidableEq, Repr

/-- Model of `Val` — runtime values.  The `f32` payload is carried as its bit pattern;
no modelled instruction computes with it (`F32Add` is `todo!()` in the
source). -/
inductive Val where
  | I32 (i : Int)
  | F32 (bits : Nat)
  | I64 (i : Int)
  | Reference (r : Ref)
deriving DecidableEq, Repr

/-- Model of `rt::Error` — the runtime error enum. -/
inductive Error where
  | StackEmpty
  | SegFault
  | FunctionNotFound
  | LocalNotFound
  | WrongValType
  | OobAccess (addr : Nat) (len : Nat)
  | InvalidAlignment
deriving DecidableEq, Repr

/-- Model of `rt::Exception` — how `Machine::execute` signals non-local exits. -/
inductive Exception where
  | Runtime (e : Error)
  | Break (n : Nat)
  | Return
deriving DecidableEq, Repr

/-! ## Instances and the store (`src/instance.rs`) -/

structure ModuleInst where
  types : List FuncType
  func_addrs : List Nat
  mem_addrs : List Nat
  table_addrs : List Nat
deriving Repr

/-- Model of `FuncInst`.  In Rust the `Local` variant holds an `Rc<RefCell<ModuleInst>>`
shared with the instantiator; here it holds the instance value.  The opaque
host callable of the `External` variant is omitted: calling it is `todo!()`
in `Machine::call`, i.e. a panic. -/
inductive FuncInst where
  | Local (typ : FuncType) (module : ModuleInst) (code : Func)
  | External (typ : FuncType)
deriving Repr

structure TableInst where
  typ : TableType
  elem : List Ref
deriving Repr

/-- Model of `Store` — memories are byte vectors (`MemInstInner.data`). -/
structure Store where
  funcs : List FuncInst
  mems : List (List Nat)
  tables : List TableInst
deriving Repr

def WASM_PAGE_SIZE : Nat := 65536

/-! ## The interpreter (`Machine::execute` / `Machine::call`)

The machine's mutable state: the single shared operand stack (`Machine.stack`,
top at the head), the store, and the current frame's localsered
(`locals: &mut Locals` of `execute`). -/

structure MState where
  stack : List Val
  locals : List Val
  store : Store
deriving Repr

/-- Outcome of executing a piece of code.

* `ok st`     — fall through normally (Rust `Ok(())` / continue the loop).
* `retOk st`  — an early `return Ok(())` out of the *enclosing* `execute`
  (only produced by the `Inst::Block` arm when it catches `Break(0)`).
* `exn e st`  — `Err(e)` with the state at the moment of the error.
* `panic st`  — a Rust panic (`panic!`, `todo!`, slice/index OOB, `unwrap`).
* `diverge`   — out of fuel (the source would keep running). -/
inductive ExecRes where
  | ok (st : MState)
  | retOk (st : MState)
  | exn (e : Exception) (st : MState)
  | panic (st : MState)
  | diverge
deriving Repr

/-- Model of `Stack::pop` — total; popping an empty stack is `Err(Error::StackEmpty)`. -/
def Stack.pop (s : List Val) : Except Error (Val × List Val) :=
  match s with
  | [] => .error .StackEmpty
  | v :: rest => .ok (v, rest)

/-- Model of `Stack::peek` — like `pop` but does not remove the value. -/
def Stack.peek (s : List Val) : Except Error Val :=
  match s with
  | [] => .error .StackEmpty
  | v :: _ => .ok v

/-- Model of `binop_i32`: pop c2, pop c1 (each must be `I32`, else `WrongValType`),
push `op c1 c2`. -/
def binop_i32 (st : MState) (op : Int → Int → Int) : ExecRes :=
  match st.stack with
  | [] => .exn (.Runtime .StackEmpty) st
  | .I32 c2 :: r1 =>
    match r1 with
    | [] => .exn (.Runtime .StackEmpty) { st with stack := [] }
    | .I32 c1 :: r2 => .ok { st with stack := .I32 (op c1 c2) :: r2 }
    | _ :: r2 => .exn (.Runtime .WrongValType) { st with stack := r2 }
  | _ :: r1 => .exn (.Runtime .WrongValType) { st with stack := r1 }

/-- Model of `unop_i32`: pop one `I32`, push `op` of it. -/
def unop_i32 (st : MState) (op : Int → Int) : ExecRes :=
  match st.stack with
  | [] => .exn (.Runtime .StackEmpty) st
  | .I32 v :: r => .ok { st with stack := .I32 (op v) :: r }
  | _ :: r => .exn (.Runtime .WrongValType) { st with stack := r }

/-- Model of `i32gt_u` — unsigned comparison of i32 bit patterns. -/
def i32gt_u (a b : Int) : Int := if toU32 a > toU32 b then 1 else 0

def i32lt_u (a b : Int) : Int := if toU32 a < toU32 b then 1 else 0

def i32ge_u (a b : Int) : Int := if toU32 a ≥ toU32 b then 1 else 0

def i32le_u (a b : Int) : Int := if toU32 a ≤ toU32 b then 1 else 0

/-- Model of `i32shr_u` — logical shift right; Rust (release) masks the shift amount. -/
def i32shr_u (a b : Int) : Int := fromU32 (toU32 a >>> (toU32 b % 32))

def i32add (a b : Int) : Int := wrap32 (a + b)

def i32sub (a b : Int) : Int := wrap32 (a - b)

def i32and (a b : Int) : Int := fromU32 (Nat.land (toU32 a) (toU32 b))

def i32or (a b : Int) : Int := fromU32 (Nat.lor (toU32 a) (toU32 b))

def i32xor (a b : Int) : Int := fromU32 (Nat.xor (toU32 a) (toU32 b))

def i32shl (a b : Int) : Int := fromU32 ((toU32 a <<< (toU32 b % 32)) % 2 ^ 32)

/-- Model of `a.rotate_left(b as u32)` on the u32 bit pattern. -/
def i32rotl (a b : Int) : Int :=
  let r := toU32 b % 32
  fromU32 (((toU32 a <<< r) ||| (toU32 a >>> (32 - r))) % 2 ^ 32)

def i32eq (a b : Int) : Int := if a = b then 1 else 0

def i32eqz (b : Int) : Int := if b = 0 then 1 else 0

/-- Effective address `ea = i as usize + memarg.offset as usize` (64-bit,
wrapping as `usize` addition would in release mode). -/
def effAddr (i : Int) (off : Nat) : Nat := (i32usize i + off) % 2 ^ 64

/-- The alignment check of `effective_address`: skipped when `align == 0`,
otherwise `ea & ((1 << (align - 1)) - 1) == 0` (a usize shift, masked mod 64). -/
def alignOk (marg : MemArg) (ea : Nat) : Bool :=
  marg.align == 0 || (ea &&& ((1 <<< ((marg.align - 1) % 64)) - 1)) == 0

/-- Result of `effective_address`: the popped/updated stack and either the
address or the exception raised. -/
inductive EaRes where
  | ok (ea : Nat) (stack : List Val)
  | exn (e : Exception) (stack : List Val)

/-- Model of `effective_address`: pop the base (must be `I32`), add the static offset,
then apply the alignment check. -/
def effective_address (stack : List Val) (marg : MemArg) : EaRes :=
  match stack with
  | [] => .exn (.Runtime .StackEmpty) []
  | .I32 i :: rest =>
    let ea := effAddr i marg.offset
    if alignOk marg ea then .ok ea rest
    else .exn (.Runtime .InvalidAlignment) rest
  | _ :: rest => .exn (.Runtime .WrongValType) rest

/-- Overwrite `bs.length` bytes of `mem` starting at `ea`
(`mem.data[ea..ea+len].copy_from_slice(&bytes)` after the bounds check). -/
def writeBytes (mem : List Nat) (ea : Nat) (bs : List Nat) : List Nat :=
  mem.take ea ++ bs ++ mem.drop (ea + bs.length)

/-- Replace memory number `a` in the store. -/
def setMem (s : Store) (a : Nat) (data : List Nat) : Store :=
  { s with mems := s.mems.set a data }

/-- Model of `default_value` — `F64`, `V128` and the reference types are `todo!()`,
i.e. a panic, modelled as `none`. -/
def default_value : ValType → Option Val
  | .I32 => some (.I32 0)
  | .I64 => some (.I64 0)
  | .F32 => some (.F32 0)
  | _ => none

/-- Push `n` copies of the default value of `t`; `none` models the panic. -/
def pushDefaults (n : Nat) (t : ValType) (acc : List Val) : Option (List Val) :=
  match default_value t with
  | none => none
  | some v => some (acc ++ List.replicate n v)

/-- Outcome of `get_locals`: the initial locals plus the remaining stack,
a runtime error (underflow while popping arguments), or a panic
(`default_value` of an unsupported type). -/
inductive LocalsRes where
  | ok (vars : List Val) (stack : List Val)
  | exn (e : Error) (stack : List Val)
  | panic (stack : List Val)

/-- Pop one argument per parameter type (types are not checked — the source
has a `TODO: assert type`). Returns the popped values in pop order. -/
def popArgs : List ValType → List Val → LocalsRes
  | [], stack => .ok [] stack
  | _ :: ps, stack =>
    match stack with
    | [] => .exn .StackEmpty []
    | v :: rest =>
      match popArgs ps rest with
      | .ok vars stack' => .ok (v :: vars) stack'
      | r => r

/-- Append the declared locals' default values. -/
def addDeclared : List LocalsDecl → List Val → Option (List Val)
  | [], vars => some vars
  | d :: ds, vars =>
    match pushDefaults d.n d.t vars with
    | none => none
    | some vars' => addDeclared ds vars'

/-- Model of `get_locals`: pop the arguments, reverse them, extend with defaults. -/
def get_locals (params : List ValType) (decls : List LocalsDecl)
    (stack : List Val) : LocalsRes :=
  match popArgs params stack with
  | .ok vars stack' =>
    match addDeclared decls vars.reverse with
    | none => .panic stack'
    | some vars' => .ok vars' stack'
  | r => r

/-- The four mutually recursive activities of the interpreter, fused into one
fuel-indexed function: executing an instruction sequence, a single
instruction, iterating a loop, and performing a call. -/
inductive Task where
  | seqT (insts : List Inst)
  | instT (inst : Inst)
  | loopT (body : List Inst)
  | callT (addr : Nat)

/-- The interpreter.  `run` mirrors `Machine::execute` (`seqT`/`instT`), the
`loop` in its `Inst::Loop` arm (`loopT`), and `Machine::call` (`callT`).
Every recursive step consumes one unit of fuel; `diverge` means the fuel ran
out, never that the source errored. -/
def run : Nat → ModuleInst → MState → Task → ExecRes
  | 0, _, _, _ => .diverge
  | _ + 1, _, st, .seqT [] => .ok st
  | f + 1, m, st, .seqT (i :: rest) =>
    match run f m st (.instT i) with
    | .ok st' => run f m st' (.seqT rest)
    | .retOk st' => .ok st'
    | r => r
  | f + 1, m, st, .instT inst =>
    match inst with
    | .Unreachable => .panic st
    | .Nop => .panic st
    | .Block body =>
      match run f m st (.seqT body) with
      | .ok st' => .ok st'
      | .retOk st' => .ok st'
      | .exn (.Break 0) st' => .retOk st'
      | .exn (.Break (n + 1)) st' => .exn (.Break n) st'
      | .exn e st' => .exn e st'
      | .panic st' => .panic st'
      | .diverge => .diverge
    | .Loop body => run f m st (.loopT body)
    | .Break b => .exn (.Break b) st
    | .BreakIf b =>
      match st.stack with
      | [] => .exn (.Runtime .StackEmpty) st
      | .I32 c :: rest =>
        if c ≠ 0 then .exn (.Break b) { st with stack := rest }
        else .ok { st with stack := rest }
      | _ :: rest => .exn (.Runtime .WrongValType) { st with stack := rest }
    | .Return => .exn .Return st
    | .Call idx =>
      match m.func_addrs.get? idx with
      | none => .panic st
      | some addr =>
        match run f m st (.callT addr) with
        | .ok st' => .ok st'
        | r => r
    | .Select =>
      match st.stack with
      | [] => .exn (.Runtime .StackEmpty) st
      | .I32 c :: r1 =>
        match r1 with
        | [] => .exn (.Runtime .StackEmpty) { st with stack := [] }
        | v2 :: r2 =>
          match r2 with
          | [] => .exn (.Runtime .StackEmpty) { st with stack := [] }
          | v1 :: r3 =>
            if c ≠ 0 then .ok { st with stack := v1 :: r3 }
            else .ok { st with stack := v2 :: r3 }
      | _ :: r1 => .exn (.Runtime .WrongValType) { st with stack := r1 }
    | .LocalGet idx =>
      match st.locals.get? idx with
      | none => .panic st
      | some v => .ok { st with stack := v :: st.stack }
    | .LocalSet idx =>
      match st.stack with
      | [] => .exn (.Runtime .StackEmpty) st
      | v :: rest =>
        if idx < st.locals.length then
          .ok { st with stack := rest, locals := st.locals.set idx v }
        else .panic { st with stack := rest }
    | .LocalTee idx =>
      match st.stack with
      | [] => .exn (.Runtime .StackEmpty) st
      | v :: _ =>
        if idx < st.locals.length then
          .ok { st with locals := st.locals.set idx v }
        else .panic st
    | .I32Add => binop_i32 st i32add
    | .I32Sub => binop_i32 st i32sub
    | .I32GtU => binop_i32 st i32gt_u
    | .I32LtU => binop_i32 st i32lt_u
    | .I32GeU => binop_i32 st i32ge_u
    | .I32LeU => binop_i32 st i32le_u
    | .I32And => binop_i32 st i32and
    | .I32ShrU => binop_i32 st i32shr_u
    | .I32Shl => binop_i32 st i32shl
    | .I32Or => binop_i32 st i32or
    | .I32Xor => binop_i32 st i32xor
    | .I32Rotl => binop_i32 st i32rotl
    | .I32Eq => binop_i32 st i32eq
    | .I32Eqz => unop_i32 st i32eqz
    | .F32Add => .panic st
    | .I32Const v => .ok { st with stack := .I32 v :: st.stack }
    | .I64Const v => .ok { st with stack := .I64 v :: st.stack }
    | .Drop =>
      match st.stack with
      | [] => .exn (.Runtime .StackEmpty) st
      | _ :: rest => .ok { st with stack := rest }
    | .I32Load marg =>
      match m.mem_addrs.get? 0 with
      | none => .panic st
      | some a =>
        match st.store.mems.get? a with
        | none => .panic st
        | some mem =>
          match effective_address st.stack marg with
          | .exn e stack' => .exn e { st with stack := stack' }
          | .ok ea stack' =>
            -- the bounds check adds `ea + N/8` in usize: the sum wraps
            -- modulo 2^64 (release mode; debug panics at the addition), and
            -- the slice `mem.data[ea .. (ea+N/8) % 2^64]` panics when its
            -- start exceeds its end, i.e. exactly when the sum wrapped
            if (ea + 4) % 2 ^ 64 > mem.length then
              .exn (.Runtime (.OobAccess ea 4)) { st with stack := stack' }
            else if ea ≤ (ea + 4) % 2 ^ 64 then
              let v := fromU32 (leNat ((mem.drop ea).take 4))
              .ok { st with stack := .I32 v :: stack' }
            else .panic { st with stack := stack' }
    | .I32Load8U marg =>
      match m.mem_addrs.get? 0 with
      | none => .panic st
      | some a =>
        match st.store.mems.get? a with
        | none => .panic st
        | some mem =>
          match effective_address st.stack marg with
          | .exn e stack' => .exn e { st with stack := stack' }
          | .ok ea stack' =>
            if (ea + 1) % 2 ^ 64 > mem.length then
              .exn (.Runtime (.OobAccess ea 1)) { st with stack := stack' }
            else if ea ≤ (ea + 1) % 2 ^ 64 then
              let v := Int.ofNat (leNat ((mem.drop ea).take 1))
              .ok { st with stack := .I32 v :: stack' }
            else .panic { st with stack := stack' }
    | .I64Load marg =>
      match m.mem_addrs.get? 0 with
      | none => .panic st
      | some a =>
        match st.store.mems.get? a with
        | none => .panic st
        | some mem =>
          match effective_address st.stack marg with
          | .exn e stack' => .exn e { st with stack := stack' }
          | .ok ea stack' =>
            if (ea + 8) % 2 ^ 64 > mem.length then
              .exn (.Runtime (.OobAccess ea 8)) { st with stack := stack' }
            else if ea ≤ (ea + 8) % 2 ^ 64 then
              let v := fromU64 (leNat ((mem.drop ea).take 8))
              .ok { st with stack := .I64 v :: stack' }
            else .panic { st with stack := stack' }
    | .I32Store marg =>
      match m.mem_addrs.get? 0 with
      | none => .panic st
      | some a =>
        match st.store.mems.get? a with
        | none => .panic st
        | some mem =>
          match st.stack with
          | [] => .exn (.Runtime .StackEmpty) st
          | .I32 c :: r1 =>
            match effective_address r1 marg with
            | .exn e stack' => .exn e { st with stack := stack' }
            | .ok ea stack' =>
              if (ea + 4) % 2 ^ 64 > mem.length then
                .exn (.Runtime (.OobAccess ea 4)) { st with stack := stack' }
              else if ea ≤ (ea + 4) % 2 ^ 64 then
                .ok { st with stack := stack', store := setMem st.store a (writeBytes mem ea (leBytes 4 (toU32 c))) }
              else .panic { st with stack := stack' }
          | _ :: r1 => .exn (.Runtime .WrongValType) { st with stack := r1 }
    | .I32Store8 marg =>
      match m.mem_addrs.get? 0 with
      | none => .panic st
      | some a =>
        match st.store.mems.get? a with
        | none => .panic st
        | some mem =>
          match st.stack with
          | [] => .exn (.Runtime .StackEmpty) st
          | .I32 c :: r1 =>
            match effective_address r1 marg with
            | .exn e stack' => .exn e { st with stack := stack' }
            | .ok ea stack' =>
              if (ea + 1) % 2 ^ 64 > mem.length then
                .exn (.Runtime (.OobAccess ea 1)) { st with stack := stack' }
              else if ea ≤ (ea + 1) % 2 ^ 64 then
                .ok { st with stack := stack', store := setMem st.store a (writeBytes mem ea [toU8 c]) }
              else .panic { st with stack := stack' }
          | _ :: r1 => .exn (.Runtime .WrongValType) { st with stack := r1 }
    | .I64Store marg =>
      match m.mem_addrs.get? 0 with
      | none => .panic st
      | some a =>
        match st.store.mems.get? a with
        | none => .panic st
        | some mem =>
          match st.stack with
          | [] => .exn (.Runtime .StackEmpty) st
          | .I64 c :: r1 =>
            match effective_address r1 marg with
            | .exn e stack' => .exn e { st with stack := stack' }
            | .ok ea stack' =>
              if (ea + 8) % 2 ^ 64 > mem.length then
                .exn (.Runtime (.OobAccess ea 8)) { st with stack := stack' }
              else if ea ≤ (ea + 8) % 2 ^ 64 then
                .ok { st with stack := stack', store := setMem st.store a (writeBytes mem ea (leBytes 8 (toU64 c))) }
              else .panic { st with stack := stack' }
          | _ :: r1 => .exn (.Runtime .WrongValType) { st with stack := r1 }
    | _ => .panic st
  | f + 1, m, st, .loopT body =>
    match run f m st (.seqT body) with
    | .ok st' => .ok st'
    | .retOk st' => .ok st'
    | .exn (.Break 0) st' => run f m st' (.loopT body)
    | .exn (.Break (n + 1)) st' => .exn (.Break n) st'
    | .exn e st' => .exn e st'
    | .panic st' => .panic st'
    | .diverge => .diverge
  | f + 1, _, st, .callT addr =>
    match st.store.funcs.get? addr with
    | none => .panic st
    | some (.External _) => .panic st
    | some (.Local typ module code) =>
      match get_locals typ.fromT.types code.locals st.stack with
      | .exn e stack' => .exn (.Runtime e) { st with stack := stack' }
      | .panic stack' => .panic { st with stack := stack' }
      | .ok vars stack' =>
        match run f module { st with stack := stack', locals := vars } (.seqT code.body) with
        | .ok st' => .ok { st' with locals := st.locals }
        | .retOk st' => .ok { st' with locals := st.locals }
        | .exn .Return st' => .ok { st' with locals := st.locals }
        | .exn (.Break _) st' => .panic { st' with locals := st.locals }
        | .exn (.Runtime e) st' => .exn (.Runtime e) { st' with locals := st.locals }
        | .panic st' => .panic st'
        | .diverge => .diverge

/-! ## Modules, externals and instantiation (`src/repr.rs`, `src/instance.rs`) -/

inductive ImportDesc where
  | Func (t : Nat)
  | Table
  | Mem
  | Global
deriving DecidableEq, Repr

structure Import where
  module : String
  nm : String
  desc : ImportDesc
deriving DecidableEq, Repr

inductive Datamode where
  | Passive
  | Active (memory : Nat) (offset : List Inst)
deriving Repr

structure Data where
  init : List Nat
  mode : Datamode
deriving Repr

inductive ExportDesc where
  | Func (i : Nat)
  | Table (i : Nat)
  | Mem (i : Nat)
  | Global (i : Nat)
deriving DecidableEq, Repr

structure Export where
  name : String
  desc : ExportDesc
deriving DecidableEq, Repr

/-- Model of `Module` — the decoded module IR.  `globals` and `elems` carry no
structure the modelled operations inspect (`Global` is a fieldless struct;
element segments are ignored by `instantiate`). -/
structure Module where
  types : List FuncType
  funcs : List Func
  tables : List TableType
  mems : List MemType
  globals : List Unit
  elems : List Unit
  datas : List Data
  start : Option Nat
  imports : List Import
  exports : List Export
deriving Repr

/-- Model of `instance::Name` — a two-level import name. -/
structure Name where
  toplevel : String
  secondlevel : String
deriving DecidableEq, Repr

/-- Model of `ExternVal` — only host functions exist; the callable itself is opaque
(calling it is `todo!()` in `Machine::call`). -/
inductive ExternVal where
  | ExternalFunc
deriving DecidableEq, Repr

/-- Model of `Externals` — a map from `Name` to `ExternVal`, modelled as an
association list with unique keys (`BTreeMap`). -/
structure Externals where
  values : List (Name × ExternVal)
deriving DecidableEq, Repr

/-- Model of `Externals::get_func` — look up and *remove* the entry for `name`. -/
def Externals.get_func (e : Externals) (name : Name) :
    Option (ExternVal × Externals) :=
  match go e.values with
  | none => none
  | some (v, rest) => some (v, ⟨rest⟩)
where
  go : List (Name × ExternVal) → Option (ExternVal × List (Name × ExternVal))
  | [] => none
  | (k, v) :: rest =>
    if k = name then some (v, rest)
    else
      match go rest with
      | none => none
      | some (v', rest') => some (v', (k, v) :: rest')

/-- Model of `Store::allocfunc` — `none` models the panic of `types[func.typ]` being
out of bounds.  The allocated `FuncInst` captures the instance value that the
Rust code shares by `Rc`. -/
def Store.allocfunc (s : Store) (func : Func) (mi : ModuleInst) :
    Option (Nat × Store) :=
  match mi.types.get? func.typ with
  | none => none
  | some ft => some (s.funcs.length, { s with funcs := s.funcs ++ [.Local ft mi func] })

/-- Model of `Store::allochostfunc`. -/
def Store.allochostfunc (s : Store) (ft : FuncType) : Nat × Store :=
  (s.funcs.length, { s with funcs := s.funcs ++ [.External ft] })

/-- Model of `Store::allocmem` — a zero-filled byte vector of `min` pages. -/
def Store.allocmem (s : Store) (mt : MemType) : Nat × Store :=
  (s.mems.length,
   { s with mems := s.mems ++ [List.replicate (mt.limits.min * WASM_PAGE_SIZE) 0] })

/-- Model of `Store::alloctable`. -/
def Store.alloctable (s : Store) (tt : TableType) (init : Ref) : Nat × Store :=
  (s.tables.length,
   { s with tables := s.tables ++ [⟨tt, List.replicate tt.limits.min init⟩] })

/-- Result of `instantiate`: the instance and final store, a panic (with the
store as mutated up to the abort), or fuel exhaustion while evaluating a
data-segment offset expression. -/
inductive InstResult where
  | ok (inst : ModuleInst) (s : Store)
  | panic (s : Store)
  | diverge
deriving Repr

/-- Intermediate result while threading instance, store and externals. -/
inductive ImpRes where
  | ok (inst : ModuleInst) (s : Store) (ext : Externals)
  | panic (s : Store)

/-- The import loop of `instantiate`: only function imports are implemented
(table/memory/global descriptors are `todo!()`); a missing external is an
`unwrap` panic. -/
def instImports (types : List FuncType) : List Import → ModuleInst → Store →
    Externals → ImpRes
  | [], inst, s, ext => .ok inst s ext
  | imp :: rest, inst, s, ext =>
    match imp.desc with
    | .Func t =>
      match types.get? t with
      | none => .panic s
      | some ft =>
        match ext.get_func ⟨imp.module, imp.nm⟩ with
        | none => .panic s
        | some (_, ext') =>
          let (addr, s') := s.allochostfunc ft
          instImports types rest { inst with func_addrs := inst.func_addrs ++ [addr] } s' ext'
    | _ => .panic s

/-- Intermediate result for the allocation loops. -/
inductive AllocRes where
  | ok (inst : ModuleInst) (s : Store)
  | panic (s : Store)

/-- The local-function allocation loop of `instantiate`. -/
def instFuncs : List Func → ModuleInst → Store → AllocRes
  | [], inst, s => .ok inst s
  | func :: rest, inst, s =>
    match s.allocfunc func inst with
    | none => .panic s
    | some (addr, s') =>
      instFuncs rest { inst with func_addrs := inst.func_addrs ++ [addr] } s'

/-- The table allocation loop of `instantiate`. -/
def instTables : List TableType → ModuleInst → Store → AllocRes
  | [], inst, s => .ok inst s
  | tt :: rest, inst, s =>
    let (addr, s') := s.alloctable tt (.Null tt.reftype)
    instTables rest { inst with table_addrs := inst.table_addrs ++ [addr] } s'

/-- The memory allocation loop of `instantiate`. -/
def instMems : List MemType → ModuleInst → Store → AllocRes
  | [], inst, s => .ok inst s
  | mt :: rest, inst, s =>
    let (addr, s') := s.allocmem mt
    instMems rest { inst with mem_addrs := inst.mem_addrs ++ [addr] } s'

/-- Result of the data-segment loop. -/
inductive DataRes where
  | ok (s : Store)
  | panic (s : Store)
  | diverge

/-- The data-segment loop of `instantiate`: for each active segment, assert
the memory index is 0, evaluate the offset expression on a fresh machine
stack, pop the i32 offset (any `Err` or a non-i32 is an `unwrap`/`panic!`),
then copy the initializer — `mem.data[offset..offset+len]` panics when
`offset + len` exceeds the memory size, before writing anything. -/
def instDatas (fuel : Nat) (inst : ModuleInst) : List Data → Store → DataRes
  | [], s => .ok s
  | data :: rest, s =>
    match data.mode with
    | .Passive => instDatas fuel inst rest s
    | .Active memory offset =>
      if memory ≠ 0 then .panic s
      else
        match run fuel inst ⟨[], [], s⟩ (.seqT offset) with
        | .exn _ st' => .panic st'.store
        | .panic st' => .panic st'.store
        | .diverge => .diverge
        | .ok st' | .retOk st' =>
          match st'.stack with
          | [] => .panic st'.store
          | .I32 off :: _ =>
            let offn := i32usize off
            let len := data.init.length
            match inst.mem_addrs.get? 0 with
            | none => .panic st'.store
            | some a =>
              match st'.store.mems.get? a with
              | none => .panic st'.store
              | some mem =>
                if offn + len ≤ mem.length then
                  instDatas fuel inst rest (setMem st'.store a (writeBytes mem offn data.init))
                else .panic st'.store
          | _ :: _ => .panic st'.store

/-- Model of `instantiate` (`src/instance.rs:138`): copy the types, resolve imports,
allocate local functions, tables and memories, then initialize active data
segments.  Every failure is a Rust panic that aborts with the store already
mutated by the preceding steps. -/
def instantiate (fuel : Nat) (module : Module) (store : Store)
    (externals : Externals) : InstResult :=
  let inst0 : ModuleInst := ⟨module.types, [], [], []⟩
  match instImports module.types module.imports inst0 store externals with
  | .panic s => .panic s
  | .ok inst1 s1 _ =>
    match instFuncs module.funcs inst1 s1 with
    | .panic s => .panic s
    | .ok inst2 s2 =>
      match instTables module.tables inst2 s2 with
      | .panic s => .panic s
      | .ok inst3 s3 =>
        match instMems module.mems inst3 s3 with
        | .panic s => .panic s
        | .ok inst4 s4 =>
          match instDatas fuel inst4 module.datas s4 with
          | .ok s5 => .ok inst4 s5
          | .panic s => .panic s
          | .diverge => .diverge

/-! ## The binary LEB128 decoder (`Parser::parse_u32`, `src/parser.rs:278`)

The byte stream is a `List Nat` (each element a byte).  Reading past the end
of the stream is the only error (`read_exact` fails), modelled as `none`. -/

/-- The `for _ in 0..5` loop of `parse_u32`: `k` iterations remain, `shift`
and `result` are the accumulator state.  When the iterations are exhausted
with the continuation bit still set, the accumulated value is returned —
there is no overlong-encoding error. -/
def parse_u32_go : Nat → Nat → Nat → List Nat → Option (Nat × List Nat)
  | 0, _, result, s => some (result, s)
  | k + 1, shift, result, s =>
    match s with
    | [] => none
    | b :: r =>
      let result := result ||| ((b &&& 0x7f) <<< shift) % 2 ^ 32
      if b &&& 0x80 == 0 then some (result, r)
      else parse_u32_go k (shift + 7) result r

/-- Model of `Parser::parse_u32` — unsigned LEB128, at most 5 bytes. -/
def parse_u32 (s : List Nat) : Option (Nat × List Nat) :=
  parse_u32_go 5 0 0 s

/-! ## The text tokenizer (`src/text/token.rs`) and tree builder (`src/scripts.rs`)

The lexer state is the remaining input, a `List Char`.  Each lexer returns
its result together with the advanced input (Rust mutates `self.input`, also
on error paths).  Loops in the source consume at least one character per
iteration, so giving them `length + 1` fuel makes them total without
changing their meaning; the `div` outcome is unreachable at those call
sites.  Character classification matches the source on the ASCII inputs the
format uses. -/

structure TextToken where
  bytes : List Nat
deriving DecidableEq, Repr

/-- Stand-in for the `f64` token payload: `num dec frac` abstracts
`f64::from_str(&format!("{}.{}", dec, frac))`; the NaN payload of
`nan:0x…` is dropped by the source itself. -/
inductive F64Lit where
  | num (dec frac : Nat)
  | inf
  | negInf
  | nan
deriving DecidableEq, Repr

inductive Token where
  | LeftParen
  | RightParen
  | Atom (s : String)
  | Name (s : String)
  | Text (t : TextToken)
  | Nat (n : ℕ)
  | Int (i : ℤ)
  | Float (f : F64Lit)
  | Equal
  | Comment (s : String)
  | Whitespace
deriving DecidableEq, Repr

inductive Sign where
  | Positive
  | Negative
deriving DecidableEq, Repr

inductive TokenizeError where
  | UnknownError
  | FailedExpectedToken
  | UnexpectedNextChar (c : Char)
  | UnexpectedEof
deriving DecidableEq, Repr

/-- Outcome of a lexer function: success, `TokenizeError`, a panic
(the `todo!()` in the `\u` escape), or fuel exhaustion (unreachable at the
chosen fuels). -/
inductive LexOut (α : Type) where
  | ok (a : α)
  | err (e : TokenizeError)
  | panic
  | div
deriving DecidableEq, Repr

/-- Model of `input.strip_prefix(s)`. -/
def stripPfx : List Char → List Char → Option (List Char)
  | [], s => some s
  | _ :: _, [] => none
  | p :: ps, c :: cs => if c = p then stripPfx ps cs else none

/-- Model of `expect_char`: consume `c` or fail without consuming. -/
def expectChar (c : Char) (s : List Char) : LexOut Unit × List Char :=
  match s with
  | [] => (.err .UnexpectedEof, [])
  | c' :: r => if c' = c then (.ok (), r) else (.err (.UnexpectedNextChar c'), s)

/-- Model of `expect_string`: strip the literal or fail without consuming. -/
def expectString (pat : List Char) (s : List Char) : LexOut Unit × List Char :=
  match stripPfx pat s with
  | some r => (.ok (), r)
  | none => (.err .FailedExpectedToken, s)

def lparen (s : List Char) : LexOut Token × List Char :=
  match expectChar '(' s with
  | (.ok _, r) => (.ok .LeftParen, r)
  | (.err e, r) => (.err e, r)
  | (.panic, r) => (.panic, r)
  | (.div, r) => (.div, r)

def rparen (s : List Char) : LexOut Token × List Char :=
  match expectChar ')' s with
  | (.ok _, r) => (.ok .RightParen, r)
  | (.err e, r) => (.err e, r)
  | (.panic, r) => (.panic, r)
  | (.div, r) => (.div, r)

def equalTok (s : List Char) : LexOut Token × List Char :=
  match expectChar '=' s with
  | (.ok _, r) => (.ok .Equal, r)
  | (.err e, r) => (.err e, r)
  | (.panic, r) => (.panic, r)
  | (.div, r) => (.div, r)

/-- Model of `whitespace`: require one whitespace character, then `trim_start`. -/
def whitespace (s : List Char) : LexOut Token × List Char :=
  match s with
  | [] => (.err .UnexpectedEof, [])
  | c :: r =>
    if c.isWhitespace then (.ok .Whitespace, r.dropWhile Char.isWhitespace)
    else (.err (.UnexpectedNextChar c), s)

/-- Model of `accept_name_char`: ASCII graphic and not one of the excluded
delimiters (space, quote, apostrophe, comma, semicolon, parens, brackets,
braces). -/
def nameCharP (c : Char) : Bool :=
  let n := c.toNat
  0x21 ≤ n && n ≤ 0x7E &&
    n ≠ 39 && n ≠ 34 && n ≠ 44 && n ≠ 59 &&
    n ≠ 40 && n ≠ 41 && n ≠ 91 && n ≠ 93 && n ≠ 123 && n ≠ 125

/-- Model of `name`: a `$` followed by name characters. -/
def nameTok (s : List Char) : LexOut Token × List Char :=
  match expectChar '$' s with
  | (.ok _, r) =>
    (.ok (.Name (String.mk (r.takeWhile nameCharP))), r.dropWhile nameCharP)
  | (.err e, r) => (.err e, r)
  | (.panic, r) => (.panic, r)
  | (.div, r) => (.div, r)

/-- Model of `input.split_once('\n')`. -/
def splitAtNl : List Char → Option (List Char × List Char)
  | [] => none
  | c :: r =>
    if c = '\n' then some ([], r)
    else
      match splitAtNl r with
      | none => none
      | some (a, b) => some (c :: a, b)

/-- Model of `linecomment`: `;;` up to (and consuming) the end of line. -/
def linecomment (s : List Char) : LexOut Token × List Char :=
  match expectString [';', ';'] s with
  | (.ok _, r) =>
    match splitAtNl r with
    | some (comment, rest) => (.ok (.Comment (String.mk comment)), rest)
    | none => (.ok (.Comment (String.mk r)), [])
  | (.err e, r) => (.err e, r)
  | (.panic, r) => (.panic, r)
  | (.div, r) => (.div, r)

/-- UTF-8 encoding of a character (`c.encode_utf8`). -/
def utf8Bytes (c : Char) : List Nat :=
  let n := c.toNat
  if n < 0x80 then [n]
  else if n < 0x800 then [0xC0 ||| (n >>> 6), 0x80 ||| (n &&& 0x3F)]
  else if n < 0x10000 then
    [0xE0 ||| (n >>> 12), 0x80 ||| ((n >>> 6) &&& 0x3F), 0x80 ||| (n &&& 0x3F)]
  else
    [0xF0 ||| (n >>> 18), 0x80 ||| ((n >>> 12) &&& 0x3F),
     0x80 ||| ((n >>> 6) &&& 0x3F), 0x80 ||| (n &&& 0x3F)]

/-- Model of `char::to_digit(10)`. -/
def digitVal? (c : Char) : Option Nat :=
  if c.isDigit then some (c.toNat - 48) else none

/-- Model of `char::to_digit(16)`. -/
def hexVal? (c : Char) : Option Nat :=
  let n := c.toNat
  if 48 ≤ n && n ≤ 57 then some (n - 48)
  else if 97 ≤ n && n ≤ 102 then some (n - 87)
  else if 65 ≤ n && n ≤ 70 then some (n - 55)
  else none

/-- The digit loop of `num`: optionally eat a `_`, then require a decimal
digit (else stop), accumulating with wrapping `usize` arithmetic.  Each
iteration consumes at least one character, so `length + 1` fuel suffices. -/
def numLoop : Nat → Nat → List Char → Nat × List Char
  | 0, n, s => (n, s)
  | f + 1, n, s =>
    let s1 := if s.head? = some '_' then s.tail else s
    match s1 with
    | [] => (n, s1)
    | c :: r =>
      match digitVal? c with
      | some d => numLoop f ((n * 10 + d) % 2 ^ 64) r
      | none => (n, s1)

/-- Model of `num`: at least one decimal digit. -/
def num (s : List Char) : LexOut Nat × List Char :=
  match s with
  | [] => (.err .FailedExpectedToken, [])
  | c :: r =>
    match digitVal? c with
    | none => (.err .FailedExpectedToken, s)
    | some d =>
      let (n, rest) := numLoop (r.length + 1) d r
      (.ok n, rest)

/-- The loop of `hexnum`; its continuation digits are read with
`accept_digit` (decimal) in the source, which is mirrored here. -/
def hexnumLoop : Nat → Nat → List Char → Nat × List Char
  | 0, n, s => (n, s)
  | f + 1, n, s =>
    let s1 := if s.head? = some '_' then s.tail else s
    match s1 with
    | [] => (n, s1)
    | c :: r =>
      match digitVal? c with
      | some d => hexnumLoop f ((n * 16 + d) % 2 ^ 64) r
      | none => (n, s1)

/-- Model of `hexnum`: at least one hex digit. -/
def hexnum (s : List Char) : LexOut Nat × List Char :=
  match s with
  | [] => (.err .FailedExpectedToken, [])
  | c :: r =>
    match hexVal? c with
    | none => (.err .FailedExpectedToken, s)
    | some d =>
      let (n, rest) := hexnumLoop (r.length + 1) d r
      (.ok n, rest)

/-- Model of `expect_nat`: `0x`-prefixed hex or decimal. -/
def expect_nat (s : List Char) : LexOut Nat × List Char :=
  match stripPfx ['0', 'x'] s with
  | some r => hexnum r
  | none => num s

/-- Model of `nat` token. -/
def natTok (s : List Char) : LexOut Token × List Char :=
  match expect_nat s with
  | (.ok n, r) => (.ok (.Nat n), r)
  | (.err e, r) => (.err e, r)
  | (.panic, r) => (.panic, r)
  | (.div, r) => (.div, r)

/-- Model of `accept_sign`. -/
def acceptSign (s : List Char) : Option Sign × List Char :=
  match s with
  | '+' :: r => (some .Positive, r)
  | '-' :: r => (some .Negative, r)
  | _ => (none, s)

/-- Model of `int`: a mandatory sign, then a nat; the value is the `usize`
reinterpreted as `isize` (and `overflowing_neg` for the negative case). -/
def intTok (s : List Char) : LexOut Token × List Char :=
  match acceptSign s with
  | (none, _) => (.err .FailedExpectedToken, s)
  | (some sign, s1) =>
    match expect_nat s1 with
    | (.ok n, r) =>
      match sign with
      | .Positive => (.ok (.Int (fromU64 n)), r)
      | .Negative => (.ok (.Int (wrap64 (-(fromU64 n)))), r)
    | (.err e, r) => (.err e, r)
    | (.panic, r) => (.panic, r)
    | (.div, r) => (.div, r)

/-- Model of `float`: optional sign (bound but unused by the source), integral part,
a mandatory dot, and an optional fractional part. -/
def floatTok (s : List Char) : LexOut Token × List Char :=
  let (_, s1) := acceptSign s
  match stripPfx ['0', 'x'] s1 with
  | some s2 =>
    match hexnum s2 with
    | (.ok dec, r1) =>
      match expectChar '.' r1 with
      | (.ok _, r2) =>
        match hexnum r2 with
        | (.ok frac, r3) => (.ok (.Float (.num dec frac)), r3)
        | (_, r3) => (.ok (.Float (.num dec 0)), r3)
      | (.err e, r2) => (.err e, r2)
      | (.panic, r2) => (.panic, r2)
      | (.div, r2) => (.div, r2)
    | (.err e, r1) => (.err e, r1)
    | (.panic, r1) => (.panic, r1)
    | (.div, r1) => (.div, r1)
  | none =>
    match num s1 with
    | (.ok dec, r1) =>
      match expectChar '.' r1 with
      | (.ok _, r2) =>
        match num r2 with
        | (.ok frac, r3) => (.ok (.Float (.num dec frac)), r3)
        | (_, r3) => (.ok (.Float (.num dec 0)), r3)
      | (.err e, r2) => (.err e, r2)
      | (.panic, r2) => (.panic, r2)
      | (.div, r2) => (.div, r2)
    | (.err e, r1) => (.err e, r1)
    | (.panic, r1) => (.panic, r1)
    | (.div, r1) => (.div, r1)

/-- Model of `float_inf`. -/
def floatInf (s : List Char) : LexOut Token × List Char :=
  let (sg, s1) := acceptSign s
  match expectString ['i', 'n', 'f'] s1 with
  | (.ok _, r) =>
    match sg.getD .Positive with
    | .Positive => (.ok (.Float .inf), r)
    | .Negative => (.ok (.Float .negInf), r)
  | (.err e, r) => (.err e, r)
  | (.panic, r) => (.panic, r)
  | (.div, r) => (.div, r)

/-- Model of `float_nan`. -/
def floatNan (s : List Char) : LexOut Token × List Char :=
  let (_, s1) := acceptSign s
  match expectString ['n', 'a', 'n'] s1 with
  | (.ok _, r) => (.ok (.Float .nan), r)
  | (.err e, r) => (.err e, r)
  | (.panic, r) => (.panic, r)
  | (.div, r) => (.div, r)

/-- Model of `float_nan_hex`: the parsed payload is dropped by the source. -/
def floatNanHex (s : List Char) : LexOut Token × List Char :=
  let (_, s1) := acceptSign s
  match expectString ['n', 'a', 'n', ':', '0', 'x'] s1 with
  | (.ok _, r) =>
    match hexnum r with
    | (.ok _, r1) => (.ok (.Float .nan), r1)
    | (.err e, r1) => (.err e, r1)
    | (.panic, r1) => (.panic, r1)
    | (.div, r1) => (.div, r1)
  | (.err e, r) => (.err e, r)
  | (.panic, r) => (.panic, r)
  | (.div, r) => (.div, r)

/-- Model of `parse_longest`: run every candidate on a clone, keep the result of the
first one whose remaining input is shortest (Rust `min_by_key` returns the
first minimum). -/
def pickMin (cands : List (LexOut Token × List Char)) :
    LexOut Token × List Char :=
  match cands with
  | [] => (.err .UnknownError, [])
  | c :: cs => cs.foldl (fun best x => if x.2.length < best.2.length then x else best) c

/-- The body of the string lexer's loop.  `acc` is the byte accumulator;
each iteration consumes at least one input character. -/
def stringLoop : Nat → List Nat → List Char → LexOut Token × List Char
  | 0, _, s => (.div, s)
  | f + 1, acc, s =>
    match s with
    | [] => (.err .UnexpectedEof, [])
    | c :: r =>
      if c = Char.ofNat 34 then (.ok (.Text ⟨acc⟩), r)
      else if c = '\\' then
        match r with
        | 'n' :: r1 => stringLoop f (acc ++ [10]) r1
        | 't' :: r1 => stringLoop f (acc ++ [9]) r1
        | '\\' :: r1 => stringLoop f (acc ++ [92]) r1
        | r1 =>
          match r1 with
          | c1 :: r2 =>
            if c1 = Char.ofNat 39 then stringLoop f (acc ++ [39]) r2
            else if c1 = Char.ofNat 34 then stringLoop f (acc ++ [34]) r2
            else if c1 = 'u' then
              match expectChar (Char.ofNat 123) r2 with
              | (.ok _, r3) =>
                match hexnum r3 with
                | (.ok _, r4) =>
                  match expectChar (Char.ofNat 125) r4 with
                  | (.ok _, r5) => (.panic, r5)
                  | (.err e, r5) => (.err e, r5)
                  | (.panic, r5) => (.panic, r5)
                  | (.div, r5) => (.div, r5)
                | (.err e, r4) => (.err e, r4)
                | (.panic, r4) => (.panic, r4)
                | (.div, r4) => (.div, r4)
              | (.err e, r3) => (.err e, r3)
              | (.panic, r3) => (.panic, r3)
              | (.div, r3) => (.div, r3)
            else
              match hexVal? c1 with
              | none => (.err .FailedExpectedToken, r1)
              | some a =>
                match r2 with
                | [] => (.err .FailedExpectedToken, [])
                | c2 :: r3 =>
                  match hexVal? c2 with
                  | none => (.err .FailedExpectedToken, c2 :: r3)
                  | some b => stringLoop f (acc ++ [a * 16 + b]) r3
          | [] => (.err .FailedExpectedToken, [])
      else stringLoop f (acc ++ utf8Bytes c) r

/-- Model of `string`: a double-quoted text token with escapes. -/
def stringTok (s : List Char) : LexOut Token × List Char :=
  match expectChar (Char.ofNat 34) s with
  | (.ok _, r) => stringLoop (r.length + 1) [] r
  | (.err e, r) => (.err e, r)
  | (.panic, r) => (.panic, r)
  | (.div, r) => (.div, r)

/-- Model of `accept_atom_char`: ASCII alphanumeric or `_` `.` `:`. -/
def atomCharP (c : Char) : Bool :=
  let n := c.toNat
  (48 ≤ n && n ≤ 57) || (65 ≤ n && n ≤ 90) || (97 ≤ n && n ≤ 122) ||
    c = '_' || c = '.' || c = ':'

def isAsciiAlphaP (c : Char) : Bool :=
  let n := c.toNat
  (65 ≤ n && n ≤ 90) || (97 ≤ n && n ≤ 122)

/-- Model of `atom`: a letter followed by atom characters. -/
def atomTok (s : List Char) : LexOut Token × List Char :=
  match s with
  | [] => (.err .UnexpectedEof, [])
  | c :: r =>
    if isAsciiAlphaP c then
      (.ok (.Atom (String.mk (c :: r.takeWhile atomCharP))), r.dropWhile atomCharP)
    else (.err .FailedExpectedToken, s)

/-- The loop of `blockcomment`, tracking nesting depth. -/
def blockLoop : Nat → Nat → List Char → List Char → LexOut Token × List Char
  | 0, _, _, s => (.div, s)
  | f + 1, depth, acc, s =>
    match stripPfx [';', ')'] s with
    | some r =>
      if depth - 1 = 0 then (.ok (.Comment (String.mk acc)), r)
      else blockLoop f (depth - 1) (acc ++ [';', ')']) r
    | none =>
      match stripPfx ['(', ';'] s with
      | some r => blockLoop f (depth + 1) (acc ++ ['(', ';']) r
      | none =>
        match s with
        | [] => (.err .UnexpectedEof, [])
        | c :: r => blockLoop f depth (acc ++ [c]) r

/-- Model of `blockcomment`: `(; … ;)`, nestable. -/
def blockcomment (s : List Char) : LexOut Token × List Char :=
  match expectString ['(', ';'] s with
  | (.ok _, r) => blockLoop (r.length + 1) 1 [] r
  | (.err e, r) => (.err e, r)
  | (.panic, r) => (.panic, r)
  | (.div, r) => (.div, r)

/-- Model of `Lexer::token`: the dispatch on the next character; `none` means end of
input. -/
def token (s : List Char) : LexOut (Option Token) × List Char :=
  match s with
  | [] => (.ok none, [])
  | c :: _ =>
    let lift : LexOut Token × List Char → LexOut (Option Token) × List Char :=
      fun p =>
        match p with
        | (.ok t, r) => (.ok (some t), r)
        | (.err e, r) => (.err e, r)
        | (.panic, r) => (.panic, r)
        | (.div, r) => (.div, r)
    if (stripPfx ['(', ';'] s).isSome then lift (blockcomment s)
    else if c = '(' then lift (lparen s)
    else if c = ')' then lift (rparen s)
    else if c = '=' then lift (equalTok s)
    else if c = '$' then lift (nameTok s)
    else if c = ';' then lift (linecomment s)
    else if c = Char.ofNat 34 then lift (stringTok s)
    else if c.isWhitespace then lift (whitespace s)
    else if isAsciiAlphaP c then lift (atomTok s)
    else
      lift (pickMin
        [natTok s, intTok s, floatTok s, floatInf s, floatNan s, floatNanHex s])

/-- Outcome of tokenizing a whole script. -/
inductive TokRes where
  | ok (ts : List Token)
  | err (e : TokenizeError)
  | panic
  | div
deriving DecidableEq, Repr

/-- The loop of `tokenize_script_without_ws`: `Comment` tokens are skipped,
everything else — `Whitespace` included — is kept. -/
def tokenizeWWGo : Nat → List Token → List Char → TokRes
  | 0, _, _ => .div
  | f + 1, acc, s =>
    match token s with
    | (.ok none, _) => .ok acc
    | (.ok (some t), rest) =>
      match t with
      | .Comment _ => tokenizeWWGo f acc rest
      | _ => tokenizeWWGo f (acc ++ [t]) rest
    | (.err e, _) => .err e
    | (.panic, _) => .panic
    | (.div, _) => .div

/-- Model of `tokenize_script_without_ws` (`src/text/token.rs:455`). -/
def tokenize_script_without_ws (s : List Char) : TokRes :=
  tokenizeWWGo (s.length + 1) [] s

/-! ### Tree building (`src/scripts.rs`) -/

inductive ParseError where
  | UnknownError
  | FailedParsingCommand
  | UnexpectedEof
  | UnexpectedToken
deriving DecidableEq, Repr

/-- Model of `Tree`: a single token or a parenthesized list. -/
inductive Tree where
  | Single (t : Token)
  | List (ts : List Tree)
deriving Repr

/-- One step of the tree builder: a tree, a parse error, or fuel-out. -/
inductive TreeStep where
  | okT (t : Tree)
  | errT (e : ParseError)
  | divT
deriving Repr

/-- The two activities of `scripts::tree`: parsing one tree, or the loop
that accumulates list elements after a left paren. -/
inductive TTask where
  | one
  | lp (acc : List Tree)

/-- Model of `scripts::tree` over a `Peekable` token iterator.  The iterator state is
threaded also through errors, as the Rust `&mut` iterator is. -/
def treeRun : Nat → List Token → TTask → TreeStep × List Token
  | 0, toks, _ => (.divT, toks)
  | f + 1, toks, .one =>
    match toks with
    | [] => (.errT .UnexpectedEof, [])
    | .RightParen :: _ => (.errT .UnexpectedToken, toks)
    | .LeftParen :: rest => treeRun f rest (.lp [])
    | t :: rest => (.okT (.Single t), rest)
  | f + 1, toks, .lp acc =>
    match treeRun f toks .one with
    | (.okT t, rest) => treeRun f rest (.lp (acc ++ [t]))
    | (.divT, rest) => (.divT, rest)
    | (.errT _, rest) =>
      match rest with
      | .RightParen :: r => (.okT (.List acc), r)
      | _ :: r => (.errT .UnexpectedToken, r)
      | [] => (.errT .UnexpectedToken, [])

/-- Outcome of `tokens_to_tree`. -/
inductive TreesRes where
  | ok (ts : List Tree)
  | err (e : ParseError)
  | div
deriving Repr

/-- The loop of `tokens_to_tree`. -/
def tokensToTreeGo : Nat → List Tree → List Token → TreesRes
  | 0, _, _ => .div
  | f + 1, acc, toks =>
    match toks with
    | [] => .ok acc
    | _ :: _ =>
      match treeRun f toks .one with
      | (.okT t, rest) => tokensToTreeGo f (acc ++ [t]) rest
      | (.errT e, _) => .err e
      | (.divT, _) => .div

/-- Model of `tokens_to_tree` (`src/scripts.rs:74`) — the entry point `run_script`
feeds the token list of `tokenize_script_without_ws` into. -/
def tokens_to_tree (toks : List Token) : TreesRes :=
  tokensToTreeGo (toks.length + 2) [] toks

/-! ## Concrete fixtures used by the evaluation theorems -/

def emptyStore : Store := ⟨[], [], []⟩

def mi0 : ModuleInst := ⟨[], [], [], []⟩

def st0 : MState := ⟨[], [], emptyStore⟩

/-- A `() → ()` function whose body is a single `br 0` (a branch to the
function's outermost label). -/
def brkFunc : Func := ⟨0, [], [.Break 0]⟩

/-- The same function with `return` instead. -/
def retFunc : Func := ⟨0, [], [.Return]⟩

def brkState : MState := ⟨[], [], ⟨[.Local ⟨⟨[]⟩, ⟨[]⟩⟩ mi0 brkFunc], [], []⟩⟩

def retState : MState := ⟨[], [], ⟨[.Local ⟨⟨[]⟩, ⟨[]⟩⟩ mi0 retFunc], [], []⟩⟩

/-- A module with one zero-page memory and one active data segment of one
byte at offset 0. -/
def dataMod : Module :=
  { types := [], funcs := [], tables := [], mems := [⟨⟨0, none⟩⟩],
    globals := [], elems := [], datas := [⟨[42], .Active 0 [.I32Const 0]⟩],
    start := none, imports := [], exports := [] }

/-! ## Helper lemmas -/

theorem listGetSetSelf (l : List Val) (i : Nat) (v : Val) (h : i < l.length) :
    (l.set i v).get? i = some v := by
  induction l generalizing i with
  | nil => simp at h
  | cons a t ih =>
    cases i with
    | zero => rfl
    | succ j => simpa using ih j (by simpa using h)

/-- Bytes outside the written window of `writeBytes` are unchanged. -/
theorem writeBytes_frame (mem : List Nat) (ea : Nat) (bs : List Nat)
    (hfit : ea + bs.length ≤ mem.length) (j : Nat)
    (hj : j < ea ∨ ea + bs.length ≤ j) :
    (writeBytes mem ea bs).get? j = mem.get? j := by
  unfold writeBytes
  have hea : ea ≤ mem.length := le_trans (Nat.le_add_right ea bs.length) hfit
  have hlen : (mem.take ea ++ bs).length = ea + bs.length := by
    simp [Nat.min_eq_left hea]
  rcases hj with hj | hj
  · rw [List.get?_append (by omega)]
    rw [List.get?_append (by simp [Nat.min_eq_left hea]; omega)]
    rw [List.get?_take hj]
  · rw [List.get?_append_right (by omega)]
    rw [hlen, List.get?_drop]
    congr 1
    omega

/-! ## Claim theorems -/

/-- C3: executing `br 0` inside a block is claimed to transfer control to
just after the block's end.  In the code, the `Inst::Block` arm of
`Machine::execute` answers a caught `Break(0)` with `return Ok(())`, which
abandons the *entire enclosing instruction sequence*: in
`[block [br 0], i32.const 7]` the constant is never executed and the final
stack is empty, while execution resuming after the block's end would have
pushed 7 (second conjunct). -/
theorem break_in_block_skips_rest_of_sequence :
    run 4 mi0 st0 (.seqT [.Block [.Break 0], .I32Const 7]) = .ok st0 ∧
    run 4 mi0 st0 (.seqT [.I32Const 7]) =
      .ok { st0 with stack := [.I32 7] } := ⟨rfl, rfl⟩

/-- C4: a `br` to the function's outermost label is claimed to behave like
`return`.  In the code, `Machine::call` has no implicit function-exit label:
a `Break` escaping the body hits `panic!("can't break through function")`,
while a `Return` completes the call normally (second conjunct). -/
theorem break_through_function_panics :
    run 3 mi0 brkState (.callT 0) = .panic brkState ∧
    run 3 mi0 retState (.callT 0) = .ok retState := ⟨rfl, rfl⟩

/-- C9: the token sequence handed to tree-building is claimed to contain no
whitespace tokens.  `tokenize_script_without_ws` only filters `Comment`
tokens: on the input `" "` it yields `[Token.Whitespace]`, and
`tokens_to_tree` (the tree builder `run_script` hands that list to) receives
the whitespace token and turns it into a tree leaf. -/
theorem whitespace_reaches_tree_builder :
    tokenize_script_without_ws [' '] = .ok [Token.Whitespace] ∧
    tokens_to_tree [Token.Whitespace] =
      .ok [Tree.Single Token.Whitespace] := ⟨rfl, rfl⟩

/-- C1: `instantiate` is claimed to leave the store logically unchanged when
instantiation fails.  Instantiating a module with a zero-page memory and a
one-byte active data segment panics at the out-of-range slice copy
(`mem.data[offset..offset+len]`), and the store at that point already holds
the freshly allocated memory instance: its `mems` differ from the initial
(empty) store's. -/
theorem instantiate_oob_data_panics_store_mutated :
    instantiate 4 dataMod emptyStore ⟨[]⟩ = .panic ⟨[], [[]], []⟩ ∧
    ([[]] : List (List Nat)) ≠ emptyStore.mems := ⟨rfl, by decide⟩

/-- C5 (counterexample): the claim requires the two `select` operands to
have identical value kind, but the interpreter performs no kind check: with
`v2 : i64` and `v1 : f32` on the stack, `select` succeeds normally and
pushes `v1`. -/
theorem select_mixed_kinds_accepted :
    run 1 mi0 ⟨[.I32 1, .I64 7, .F32 0], [], emptyStore⟩ (.instT .Select) =
      .ok ⟨[.F32 0], [], emptyStore⟩ := rfl

/-- C5 (amended): `select` pops the i32 condition `c`, then `v2`, then `v1`,
and pushes `v1` if `c ≠ 0` and `v2` otherwise — for operands of *any* value
kinds; no kind equality is checked at runtime. -/
theorem select_pops_c_v2_v1_pushes_selected (f : Nat) (m : ModuleInst)
    (st : MState) (c : Int) (v2 v1 : Val) (rest : List Val)
    (h : st.stack = .I32 c :: v2 :: v1 :: rest) :
    run (f + 1) m st (.instT .Select) =
      .ok { st with stack := (if c ≠ 0 then v1 else v2) :: rest } := by
  by_cases hc : c = 0 <;> simp [run, h, hc]

theorem select_pops_c_v2_v1_pushes_selected_witness :
    run 1 mi0 ⟨[.I32 0, .I64 9, .F32 3], [], emptyStore⟩ (.instT .Select) =
      .ok ⟨[.I64 9], [], emptyStore⟩ := by
  have h := select_pops_c_v2_v1_pushes_selected 0 mi0
    ⟨[.I32 0, .I64 9, .F32 3], [], emptyStore⟩ 0 (.I64 9) (.F32 3) [] rfl
  simpa using h

/-- C6: `local.tee i` is equivalent to `local.set i; local.get i`: on a
non-empty stack and a valid local index, both produce the same machine
state — the stack is unchanged and local `i` holds the former stack top. -/
theorem local_tee_equiv_set_get (f g : Nat) (m : ModuleInst) (st : MState)
    (v : Val) (rest : List Val) (i : Nat)
    (hstk : st.stack = v :: rest) (hi : i < st.locals.length) :
    run (f + 1) m st (.instT (.LocalTee i)) =
      run (g + 3) m st (.seqT [.LocalSet i, .LocalGet i]) ∧
    run (f + 1) m st (.instT (.LocalTee i)) =
      .ok { st with locals := st.locals.set i v } := by
  obtain ⟨stk, loc, sto⟩ := st
  simp only at hstk hi
  subst hstk
  constructor
  · simp [run, hi, listGetSetSelf loc i v hi]
  · simp [run, hi]

/-- C2 (counterexample): an out-of-bounds access is claimed to trap with the
memory-out-of-bounds error.  With `memarg.align = 2` and base 1 on an empty
memory, `ea = 1` and `ea + 4 > 0`, yet the access fails with
`InvalidAlignment` — the alignment check of `effective_address` runs before
the bounds check — so no out-of-bounds trap is produced. -/
theorem oob_access_preempted_by_alignment :
    run 1 ⟨[], [], [0], []⟩ ⟨[.I32 1], [], ⟨[], [[]], []⟩⟩
        (.instT (.I32Load ⟨2, 0⟩)) =
      .exn (.Runtime .InvalidAlignment) ⟨[], [], ⟨[], [[]], []⟩⟩ ∧
    (∀ st' : MState, ∀ ea w : Nat,
      run 1 ⟨[], [], [0], []⟩ ⟨[.I32 1], [], ⟨[], [[]], []⟩⟩
          (.instT (.I32Load ⟨2, 0⟩)) ≠
        .exn (.Runtime (.OobAccess ea w)) st') := by
  refine ⟨rfl, ?_⟩
  intro st' ea w h
  rw [show run 1 ⟨[], [], [0], []⟩ ⟨[.I32 1], [], ⟨[], [[]], []⟩⟩
        (.instT (.I32Load ⟨2, 0⟩)) =
      .exn (.Runtime .InvalidAlignment) ⟨[], [], ⟨[], [[]], []⟩⟩ from rfl] at h
  simp at h

/-- C2 (amended): for the implemented loads (`i32.load`, `i32.load8_u`,
`i64.load`) and stores (`i32.store`, `i32.store8`, `i64.store`), *provided
the alignment check of `effective_address` passes and the usize sum
`ea + N/8` does not overflow* (`ea + N/8 < 2^64`), the access traps with
`OobAccess ea (N/8)` exactly when `ea + N/8` exceeds the memory size; a
normal return implies the access was in bounds, a load's result depends only
on the bytes in `[ea, ea + N/8)` and leaves the store unchanged, and a store
rewrites exactly that byte window (fourth conjunct: all other bytes are
preserved).  When the sum overflows — reachable through a negative i32 base —
the program never performs the access: with the release-mode wrapping
modelled here it returns the `OobAccess` trap if the wrapped end exceeds the
memory length and otherwise panics at the slice, whose start exceeds its end
(under debug overflow checks the addition itself panics); the fifth conjunct
proves both overflow outcomes for `i32.load` and `i32.store`. -/
theorem memory_access_bounds_checked (f : Nat) (m : ModuleInst) (st : MState)
    (marg : MemArg) (a : Nat) (mem : List Nat) (i : Int) (rest : List Val)
    (hmem0 : m.mem_addrs[0]? = some a)
    (hmems : st.store.mems[a]? = some mem)
    (halign : alignOk marg (effAddr i marg.offset) = true) :
    (st.stack = .I32 i :: rest →
      (effAddr i marg.offset + 4 < 2 ^ 64 → effAddr i marg.offset + 4 > mem.length →
        run (f + 1) m st (.instT (.I32Load marg)) =
          .exn (.Runtime (.OobAccess (effAddr i marg.offset) 4)) { st with stack := rest }) ∧
      (effAddr i marg.offset + 4 < 2 ^ 64 → effAddr i marg.offset + 4 ≤ mem.length →
        run (f + 1) m st (.instT (.I32Load marg)) =
          .ok { st with stack := .I32 (fromU32 (leNat ((mem.drop (effAddr i marg.offset)).take 4))) :: rest }) ∧
      (effAddr i marg.offset + 1 < 2 ^ 64 → effAddr i marg.offset + 1 > mem.length →
        run (f + 1) m st (.instT (.I32Load8U marg)) =
          .exn (.Runtime (.OobAccess (effAddr i marg.offset) 1)) { st with stack := rest }) ∧
      (effAddr i marg.offset + 1 < 2 ^ 64 → effAddr i marg.offset + 1 ≤ mem.length →
        run (f + 1) m st (.instT (.I32Load8U marg)) =
          .ok { st with stack := .I32 (Int.ofNat (leNat ((mem.drop (effAddr i marg.offset)).take 1))) :: rest }) ∧
      (effAddr i marg.offset + 8 < 2 ^ 64 → effAddr i marg.offset + 8 > mem.length →
        run (f + 1) m st (.instT (.I64Load marg)) =
          .exn (.Runtime (.OobAccess (effAddr i marg.offset) 8)) { st with stack := rest }) ∧
      (effAddr i marg.offset + 8 < 2 ^ 64 → effAddr i marg.offset + 8 ≤ mem.length →
        run (f + 1) m st (.instT (.I64Load marg)) =
          .ok { st with stack := .I64 (fromU64 (leNat ((mem.drop (effAddr i marg.offset)).take 8))) :: rest })) ∧
    (∀ c : Int, st.stack = .I32 c :: .I32 i :: rest →
      (effAddr i marg.offset + 4 < 2 ^ 64 → effAddr i marg.offset + 4 > mem.length →
        run (f + 1) m st (.instT (.I32Store marg)) =
          .exn (.Runtime (.OobAccess (effAddr i marg.offset) 4)) { st with stack := rest }) ∧
      (effAddr i marg.offset + 4 < 2 ^ 64 → effAddr i marg.offset + 4 ≤ mem.length →
        run (f + 1) m st (.instT (.I32Store marg)) =
          .ok { st with stack := rest, store := setMem st.store a (writeBytes mem (effAddr i marg.offset) (leBytes 4 (toU32 c))) }) ∧
      (effAddr i marg.offset + 1 < 2 ^ 64 → effAddr i marg.offset + 1 > mem.length →
        run (f + 1) m st (.instT (.I32Store8 marg)) =
          .exn (.Runtime (.OobAccess (effAddr i marg.offset) 1)) { st with stack := rest }) ∧
      (effAddr i marg.offset + 1 < 2 ^ 64 → effAddr i marg.offset + 1 ≤ mem.length →
        run (f + 1) m st (.instT (.I32Store8 marg)) =
          .ok { st with stack := rest, store := setMem st.store a (writeBytes mem (effAddr i marg.offset) [toU8 c]) })) ∧
    (∀ c : Int, st.stack = .I64 c :: .I32 i :: rest →
      (effAddr i marg.offset + 8 < 2 ^ 64 → effAddr i marg.offset + 8 > mem.length →
        run (f + 1) m st (.instT (.I64Store marg)) =
          .exn (.Runtime (.OobAccess (effAddr i marg.offset) 8)) { st with stack := rest }) ∧
      (effAddr i marg.offset + 8 < 2 ^ 64 → effAddr i marg.offset + 8 ≤ mem.length →
        run (f + 1) m st (.instT (.I64Store marg)) =
          .ok { st with stack := rest, store := setMem st.store a (writeBytes mem (effAddr i marg.offset) (leBytes 8 (toU64 c))) })) ∧
    (∀ bs : List Nat, ∀ j : Nat,
      effAddr i marg.offset + bs.length ≤ mem.length →
      (j < effAddr i marg.offset ∨ effAddr i marg.offset + bs.length ≤ j) →
      (writeBytes mem (effAddr i marg.offset) bs).get? j = mem.get? j) ∧
    (effAddr i marg.offset + 4 ≥ 2 ^ 64 →
      (st.stack = .I32 i :: rest →
        ((effAddr i marg.offset + 4) % 2 ^ 64 > mem.length →
          run (f + 1) m st (.instT (.I32Load marg)) =
            .exn (.Runtime (.OobAccess (effAddr i marg.offset) 4)) { st with stack := rest }) ∧
        ((effAddr i marg.offset + 4) % 2 ^ 64 ≤ mem.length →
          run (f + 1) m st (.instT (.I32Load marg)) = .panic { st with stack := rest })) ∧
      (∀ c : Int, st.stack = .I32 c :: .I32 i :: rest →
        ((effAddr i marg.offset + 4) % 2 ^ 64 > mem.length →
          run (f + 1) m st (.instT (.I32Store marg)) =
            .exn (.Runtime (.OobAccess (effAddr i marg.offset) 4)) { st with stack := rest }) ∧
        ((effAddr i marg.offset + 4) % 2 ^ 64 ≤ mem.length →
          run (f + 1) m st (.instT (.I32Store marg)) = .panic { st with stack := rest }))) := by
  refine ⟨?_, ?_, ?_, ?_, ?_⟩
  · intro hstk
    refine ⟨?_, ?_, ?_, ?_, ?_, ?_⟩ <;> intro hnw hb <;>
      simp [-Nat.reducePow, run, effective_address, hmem0, hmems, hstk, halign, hb,
        Nat.mod_eq_of_lt hnw, Nat.not_lt.mpr, Nat.le_add_right]
  · intro c hstk
    refine ⟨?_, ?_, ?_, ?_⟩ <;> intro hnw hb <;>
      simp [-Nat.reducePow, run, effective_address, hmem0, hmems, hstk, halign, hb,
        Nat.mod_eq_of_lt hnw, Nat.not_lt.mpr, Nat.le_add_right]
  · intro c hstk
    refine ⟨?_, ?_⟩ <;> intro hnw hb <;>
      simp [-Nat.reducePow, run, effective_address, hmem0, hmems, hstk, halign, hb,
        Nat.mod_eq_of_lt hnw, Nat.not_lt.mpr, Nat.le_add_right]
  · intro bs j hfit hj
    exact writeBytes_frame mem (effAddr i marg.offset) bs hfit j hj
  · intro hw
    have hlt : effAddr i marg.offset < 2 ^ 64 := by
      unfold effAddr
      omega
    have hne : ¬ (effAddr i marg.offset ≤ (effAddr i marg.offset + 4) % 2 ^ 64) := by
      omega
    refine ⟨?_, ?_⟩
    · intro hstk
      refine ⟨?_, ?_⟩ <;> intro hb <;>
        simp [-Nat.reducePow, run, effective_address, hmem0, hmems, hstk, halign, hb,
          Nat.not_lt.mpr, hne]
    · intro c hstk
      refine ⟨?_, ?_⟩ <;> intro hb <;>
        simp [-Nat.reducePow, run, effective_address, hmem0, hmems, hstk, halign, hb,
          Nat.not_lt.mpr, hne]

theorem memory_access_bounds_checked_witness :
    run 1 ⟨[], [], [0], []⟩ ⟨[.I32 6], [], ⟨[], [[1, 2, 3, 4, 5, 6, 7, 8]], []⟩⟩
        (.instT (.I32Load ⟨0, 1⟩)) =
      .exn (.Runtime (.OobAccess 7 4)) ⟨[], [], ⟨[], [[1, 2, 3, 4, 5, 6, 7, 8]], []⟩⟩ ∧
    run 1 ⟨[], [], [0], []⟩ ⟨[.I32 2], [], ⟨[], [[1, 2, 3, 4, 5, 6, 7, 8]], []⟩⟩
        (.instT (.I32Load ⟨0, 1⟩)) =
      .ok ⟨[.I32 (fromU32 (leNat [4, 5, 6, 7]))], [], ⟨[], [[1, 2, 3, 4, 5, 6, 7, 8]], []⟩⟩ ∧
    run 1 ⟨[], [], [0], []⟩ ⟨[.I32 (-1)], [], ⟨[], [[1, 2, 3, 4]], []⟩⟩
        (.instT (.I32Load ⟨0, 0⟩)) =
      .panic ⟨[], [], ⟨[], [[1, 2, 3, 4]], []⟩⟩ := by
  refine ⟨?_, ?_, ?_⟩
  · have h := (memory_access_bounds_checked 0 ⟨[], [], [0], []⟩
      ⟨[.I32 6], [], ⟨[], [[1, 2, 3, 4, 5, 6, 7, 8]], []⟩⟩ ⟨0, 1⟩ 0
      [1, 2, 3, 4, 5, 6, 7, 8] 6 [] rfl rfl rfl).1 rfl
    exact h.1 (by decide) (by decide)
  · have h := (memory_access_bounds_checked 0 ⟨[], [], [0], []⟩
      ⟨[.I32 2], [], ⟨[], [[1, 2, 3, 4, 5, 6, 7, 8]], []⟩⟩ ⟨0, 1⟩ 0
      [1, 2, 3, 4, 5, 6, 7, 8] 2 [] rfl rfl rfl).1 rfl
    have h2 := h.2.1 (by decide) (by decide)
    simpa using h2
  · have h := ((memory_access_bounds_checked 0 ⟨[], [], [0], []⟩
      ⟨[.I32 (-1)], [], ⟨[], [[1, 2, 3, 4]], []⟩⟩ ⟨0, 0⟩ 0
      [1, 2, 3, 4] (-1) [] rfl rfl rfl).2.2.2.2 (by decide)).1 rfl
    exact h.2 (by decide)

/-- C7 (counterexample): the alignment hint is claimed never to cause a
failure.  An `i32.load` with hint `align = 2` at `ea = 1` on an 8-byte
memory is in bounds (`1 + 4 ≤ 8`, second conjunct) yet fails with
`InvalidAlignment`. -/
theorem alignment_hint_rejects_in_bounds_access :
    run 1 ⟨[], [], [0], []⟩ ⟨[.I32 1], [], ⟨[], [[0, 0, 0, 0, 0, 0, 0, 0]], []⟩⟩
        (.instT (.I32Load ⟨2, 0⟩)) =
      .exn (.Runtime .InvalidAlignment) ⟨[], [], ⟨[], [[0, 0, 0, 0, 0, 0, 0, 0]], []⟩⟩ ∧
    effAddr 1 0 + 4 ≤ 8 := ⟨rfl, by decide⟩

/-- C7 (amended): the `memarg.align` hint *does* affect execution.  With
`align = 0` the alignment check always passes and an in-bounds access (on a
memory of usize length, `|mem| < 2^64`, which every Rust `Vec` satisfies)
succeeds regardless of whether `ea` is a multiple of the natural alignment
(shown for `i32.load` and `i32.store` at any `ea`); with `align ≥ 1`,
`effective_address` requires `ea & (2^(align-1) - 1) = 0` and otherwise the
access fails with `InvalidAlignment`. -/
theorem alignment_hint_semantics (marg : MemArg) (i : Int) (rest : List Val) :
    (marg.align = 0 →
      effective_address (.I32 i :: rest) marg = .ok (effAddr i marg.offset) rest) ∧
    (alignOk marg (effAddr i marg.offset) = false →
      effective_address (.I32 i :: rest) marg = .exn (.Runtime .InvalidAlignment) rest) ∧
    (∀ (f : Nat) (m : ModuleInst) (st : MState) (a : Nat) (mem : List Nat),
      m.mem_addrs[0]? = some a → st.store.mems[a]? = some mem →
      st.stack = .I32 i :: rest → marg.align = 0 → mem.length < 2 ^ 64 →
      effAddr i marg.offset + 4 ≤ mem.length →
      run (f + 1) m st (.instT (.I32Load marg)) =
        .ok { st with stack := .I32 (fromU32 (leNat ((mem.drop (effAddr i marg.offset)).take 4))) :: rest }) ∧
    (∀ (f : Nat) (m : ModuleInst) (st : MState) (a : Nat) (mem : List Nat) (c : Int),
      m.mem_addrs[0]? = some a → st.store.mems[a]? = some mem →
      st.stack = .I32 c :: .I32 i :: rest → marg.align = 0 → mem.length < 2 ^ 64 →
      effAddr i marg.offset + 4 ≤ mem.length →
      run (f + 1) m st (.instT (.I32Store marg)) =
        .ok { st with stack := rest, store := setMem st.store a (writeBytes mem (effAddr i marg.offset) (leBytes 4 (toU32 c))) }) ∧
    (∀ (f : Nat) (m : ModuleInst) (st : MState) (a : Nat) (mem : List Nat),
      m.mem_addrs[0]? = some a → st.store.mems[a]? = some mem →
      st.stack = .I32 i :: rest → alignOk marg (effAddr i marg.offset) = false →
      run (f + 1) m st (.instT (.I32Load marg)) =
        .exn (.Runtime .InvalidAlignment) { st with stack := rest }) := by
  refine ⟨?_, ?_, ?_, ?_, ?_⟩
  · intro h0
    simp [effective_address, alignOk, h0]
  · intro hfail
    simp [effective_address, hfail]
  · intro f m st a mem hmem0 hmems hstk h0 hlen hin
    have hnw : effAddr i marg.offset + 4 < 2 ^ 64 := by omega
    simp [-Nat.reducePow, run, effective_address, alignOk, hmem0, hmems, hstk, h0,
      hin, Nat.mod_eq_of_lt hnw, Nat.not_lt.mpr, Nat.le_add_right]
  · intro f m st a mem c hmem0 hmems hstk h0 hlen hin
    have hnw : effAddr i marg.offset + 4 < 2 ^ 64 := by omega
    simp [-Nat.reducePow, run, effective_address, alignOk, hmem0, hmems, hstk, h0,
      hin, Nat.mod_eq_of_lt hnw, Nat.not_lt.mpr, Nat.le_add_right]
  · intro f m st a mem hmem0 hmems hstk hfail
    simp [run, effective_address, hmem0, hmems, hstk, hfail]

theorem alignment_hint_semantics_witness :
    run 1 ⟨[], [], [0], []⟩ ⟨[.I32 1], [], ⟨[], [[10, 20, 30, 40, 50, 60, 70, 80]], []⟩⟩
        (.instT (.I32Load ⟨0, 0⟩)) =
      .ok ⟨[.I32 (fromU32 (leNat [20, 30, 40, 50]))], [],
           ⟨[], [[10, 20, 30, 40, 50, 60, 70, 80]], []⟩⟩ := by
  have h := (alignment_hint_semantics ⟨0, 0⟩ 1 []).2.2.1 0 ⟨[], [], [0], []⟩
    ⟨[.I32 1], [], ⟨[], [[10, 20, 30, 40, 50, 60, 70, 80]], []⟩⟩ 0
    [[10, 20, 30, 40, 50, 60, 70, 80]].head! rfl rfl rfl rfl (by decide) (by decide)
  simpa using h

/-- C8 (counterexample): decoding an unsigned LEB128 u32 whose continuation
bit is still set at the fifth byte is claimed to be a decode error.
`parse_u32` instead returns the accumulated value: five `0x80` bytes decode
to `some (0, [])`, and five `0xFF` bytes decode to `some (0xFFFFFFFF, _)`
with the sixth byte left unconsumed. -/
theorem parse_u32_overlong_returns_value :
    parse_u32 [0x80, 0x80, 0x80, 0x80, 0x80] = some (0, []) ∧
    parse_u32 [0xFF, 0xFF, 0xFF, 0xFF, 0xFF, 0x01] =
      some (0xFFFFFFFF, [0x01]) := ⟨rfl, rfl⟩

/-- C8 (amended): `parse_u32` reads at most five bytes.  If all five have
the continuation bit set, it stops after the fifth byte and returns — with
no error — the value assembled from the five 7-bit groups (the last group
truncated by the u32 shift), leaving the rest of the stream unconsumed. -/
theorem parse_u32_five_byte_limit (b0 b1 b2 b3 b4 : Nat) (rest : List Nat)
    (h0 : b0 &&& 0x80 ≠ 0) (h1 : b1 &&& 0x80 ≠ 0) (h2 : b2 &&& 0x80 ≠ 0)
    (h3 : b3 &&& 0x80 ≠ 0) (h4 : b4 &&& 0x80 ≠ 0) :
    parse_u32 (b0 :: b1 :: b2 :: b3 :: b4 :: rest) =
      some ((b0 &&& 127) ||| ((b1 &&& 127) <<< 7) % 2 ^ 32 |||
        ((b2 &&& 127) <<< 14) % 2 ^ 32 ||| ((b3 &&& 127) <<< 21) % 2 ^ 32 |||
        ((b4 &&& 127) <<< 28) % 2 ^ 32, rest) := by
  have e0 : (b0 &&& 127) % 4294967296 = b0 &&& 127 :=
    Nat.mod_eq_of_lt (lt_of_le_of_lt Nat.and_le_right (by norm_num))
  simp [parse_u32, parse_u32_go, h0, h1, h2, h3, h4]
  rw [e0]

theorem parse_u32_five_byte_limit_witness :
    parse_u32 [255, 255, 255, 255, 255, 7] = some (4294967295, [7]) := by
  have h := parse_u32_five_byte_limit 255 255 255 255 255 [7]
    (by decide) (by decide) (by decide) (by decide) (by decide)
  rw [h]
  rfl

/-- C10 (counterexample): an instruction popping more values than the stack
holds is claimed to return `StackEmpty`.  `i32.add` on a one-element stack
holding an `i64` pops that value first, fails its kind test, and returns
`WrongValType` — not `StackEmpty`. -/
theorem underflow_with_wrong_kind_not_StackEmpty :
    run 1 mi0 ⟨[.I64 0], [], emptyStore⟩ (.instT .I32Add) =
      .exn (.Runtime .WrongValType) ⟨[], [], emptyStore⟩ ∧
    Error.WrongValType ≠ Error.StackEmpty := ⟨rfl, by decide⟩

/-- C10 (amended): popping from an empty stack is total and yields the error
`StackEmpty`, never a value; every implemented consuming instruction (drop,
select, br_if, the shared i32 binop/unop helpers and `i32.add`, the loads
and the stores) returns `Runtime StackEmpty` when the stack runs out —
provided each value it pops before the underflow has the kind the
instruction expects (select with an i32 on top, a binop whose first popped
operand is an i32, a store whose one present operand is the well-kinded
value, which is popped before the missing base address underflows in
`effective_address`). -/
theorem consuming_instructions_underflow_StackEmpty :
    (Stack.pop ([] : List Val) = .error .StackEmpty) ∧
    (∀ (st : MState) (op : Int → Int → Int), st.stack = [] →
      binop_i32 st op = .exn (.Runtime .StackEmpty) st) ∧
    (∀ (st : MState) (op : Int → Int → Int) (x : Int), st.stack = [.I32 x] →
      binop_i32 st op = .exn (.Runtime .StackEmpty) { st with stack := [] }) ∧
    (∀ (st : MState) (op : Int → Int), st.stack = [] →
      unop_i32 st op = .exn (.Runtime .StackEmpty) st) ∧
    (∀ (f : Nat) (m : ModuleInst) (st : MState), st.stack = [] →
      run (f + 1) m st (.instT .Drop) = .exn (.Runtime .StackEmpty) st) ∧
    (∀ (f : Nat) (m : ModuleInst) (st : MState), st.stack = [] →
      run (f + 1) m st (.instT .Select) = .exn (.Runtime .StackEmpty) st) ∧
    (∀ (f : Nat) (m : ModuleInst) (st : MState) (c : Int), st.stack = [.I32 c] →
      run (f + 1) m st (.instT .Select) = .exn (.Runtime .StackEmpty) { st with stack := [] }) ∧
    (∀ (f : Nat) (m : ModuleInst) (st : MState) (c : Int) (v : Val),
      st.stack = [.I32 c, v] →
      run (f + 1) m st (.instT .Select) = .exn (.Runtime .StackEmpty) { st with stack := [] }) ∧
    (∀ (f : Nat) (m : ModuleInst) (st : MState) (b : Nat), st.stack = [] →
      run (f + 1) m st (.instT (.BreakIf b)) = .exn (.Runtime .StackEmpty) st) ∧
    (∀ (f : Nat) (m : ModuleInst) (st : MState), st.stack = [] →
      run (f + 1) m st (.instT .I32Add) = .exn (.Runtime .StackEmpty) st) ∧
    (∀ (f : Nat) (m : ModuleInst) (st : MState) (marg : MemArg) (a : Nat) (mem : List Nat),
      m.mem_addrs[0]? = some a → st.store.mems[a]? = some mem → st.stack = [] →
      run (f + 1) m st (.instT (.I32Load marg)) = .exn (.Runtime .StackEmpty) st ∧
      run (f + 1) m st (.instT (.I32Load8U marg)) = .exn (.Runtime .StackEmpty) st ∧
      run (f + 1) m st (.instT (.I64Load marg)) = .exn (.Runtime .StackEmpty) st ∧
      run (f + 1) m st (.instT (.I32Store marg)) = .exn (.Runtime .StackEmpty) st ∧
      run (f + 1) m st (.instT (.I32Store8 marg)) = .exn (.Runtime .StackEmpty) st ∧
      run (f + 1) m st (.instT (.I64Store marg)) = .exn (.Runtime .StackEmpty) st) ∧
    (∀ (f : Nat) (m : ModuleInst) (st : MState) (marg : MemArg) (a : Nat)
        (mem : List Nat) (c : Int),
      m.mem_addrs[0]? = some a → st.store.mems[a]? = some mem →
      st.stack = [.I32 c] →
      run (f + 1) m st (.instT (.I32Store marg)) =
        .exn (.Runtime .StackEmpty) { st with stack := [] } ∧
      run (f + 1) m st (.instT (.I32Store8 marg)) =
        .exn (.Runtime .StackEmpty) { st with stack := [] }) ∧
    (∀ (f : Nat) (m : ModuleInst) (st : MState) (marg : MemArg) (a : Nat)
        (mem : List Nat) (c : Int),
      m.mem_addrs[0]? = some a → st.store.mems[a]? = some mem →
      st.stack = [.I64 c] →
      run (f + 1) m st (.instT (.I64Store marg)) =
        .exn (.Runtime .StackEmpty) { st with stack := [] }) := by
  refine ⟨rfl, ?_, ?_, ?_, ?_, ?_, ?_, ?_, ?_, ?_, ?_, ?_, ?_⟩
  · intro st op h
    simp [binop_i32, h]
  · intro st op x h
    simp [binop_i32, h]
  · intro st op h
    simp [unop_i32, h]
  · intro f m st h
    simp [run, h]
  · intro f m st h
    simp [run, h]
  · intro f m st c h
    simp [run, h]
  · intro f m st c v h
    simp [run, h]
  · intro f m st b h
    simp [run, h]
  · intro f m st h
    simp [run, binop_i32, h]
  · intro f m st marg a mem hmem0 hmems h
    obtain ⟨stk, loc, sto⟩ := st
    simp only at h hmems
    subst h
    refine ⟨?_, ?_, ?_, ?_, ?_, ?_⟩ <;>
      simp [run, effective_address, hmem0, hmems]
  · intro f m st marg a mem c hmem0 hmems h
    refine ⟨?_, ?_⟩ <;> simp [run, effective_address, hmem0, hmems, h]
  · intro f m st marg a mem c hmem0 hmems h
    simp [run, effective_address, hmem0, hmems, h]

theorem consuming_instructions_underflow_StackEmpty_witness :
    run 1 mi0 st0 (.instT .Drop) = .exn (.Runtime .StackEmpty) st0 :=
  consuming_instructions_underflow_StackEmpty.2.2.2.2.1 0 mi0 st0 rfl

theorem local_tee_equiv_set_get_witness :
    run 1 mi0 ⟨[.I32 5], [.I32 0, .I32 1], emptyStore⟩ (.instT (.LocalTee 1)) =
      run 3 mi0 ⟨[.I32 5], [.I32 0, .I32 1], emptyStore⟩
        (.seqT [.LocalSet 1, .LocalGet 1]) ∧
    run 1 mi0 ⟨[.I32 5], [.I32 0, .I32 1], emptyStore⟩ (.instT (.LocalTee 1)) =
      .ok ⟨[.I32 5], [.I32 0, .I32 5], emptyStore⟩ := by
  have h := local_tee_equiv_set_get 0 0 mi0
    ⟨[.I32 5], [.I32 0, .I32 1], emptyStore⟩ (.I32 5) [] 1 rfl (by decide)
  simpa using h

end Wasm
